import Mathlib

/-!
Verification of the certstream-server-go ingestion/enrichment core
(`internal/certificatetransparency/ct-parser.go` and `ct-watcher.go`).

Shallow embedding conventions:
* Go byte slices are `List Nat` (each element < 256 in all intended inputs).
* Go `*string` / nil-able values are `Option String`; a Go nil slice of
  strings is `[]` (the parser only distinguishes nil from empty for
  `parseName`, where x509 decoding yields nil for absent DN attributes).
* Go `map[string]string` is an association list with unique keys
  (`mapInsert` overwrites, `mapLookup` finds the unique binding); a nil Go
  map is `Option.none` where the nil/non-nil distinction matters.
* External library calls (SHA-1/SHA-256 digests, `psl.EffectiveTLDPlusOne`,
  `net.ParseIP`, `x509.ParseCertificate`, `RawLogEntry.ToLogEntry`,
  `base64.StdEncoding.DecodeString`) are oracles carried in `Env` or passed
  as function arguments; the code under verification only composes their
  results.
* Wall-clock time (`time.Now().UnixMilli()`) is an explicit `Int` argument.
* A Go runtime panic (nil dereference, index out of range) is `Option.none`.
-/

/-- Go `strings.Contains s sub` (byte-wise containment; ASCII-faithful). -/
def goContains (s sub : String) : Bool :=
  decide (sub.data <:+: s.data)

/-- Split a character list on a separator character (keeping empty parts,
like Go `strings.Split`). -/
def splitOnChar (sep : Char) : List Char → List (List Char)
  | [] => [[]]
  | c :: rest =>
    let r := splitOnChar sep rest
    if c = sep then [] :: r
    else
      match r with
      | [] => [[c]]
      | h :: t => (c :: h) :: t

/-- Go `strings.Split s sep` for a single-character separator (the only
form the source uses: splitting StartIndex tokens on `" "`). -/
def goSplitChar (s : String) (sep : Char) : List String :=
  (splitOnChar sep s.data).map String.mk

/-- The numeric value of a non-empty all-digit character list. -/
def decDigitsVal (cs : List Char) : Option Nat :=
  if cs = [] then none
  else
    cs.foldl
      (fun acc c =>
        match acc with
        | none => none
        | some n => if 48 ≤ c.toNat ∧ c.toNat ≤ 57 then some (n * 10 + (c.toNat - 48)) else none)
      (some 0)

/-- Go `strings.Join a sep`. -/
def goJoin (a : List String) (sep : String) : String :=
  match a with
  | [] => ""
  | x :: xs => xs.foldl (fun acc s => acc ++ sep ++ s) x

/-- Go `strings.HasPrefix s pre`. -/
def goHasPre (s pre : String) : Bool :=
  decide (pre.data <+: s.data)

/-- Go `strings.HasSuffix s suf`. -/
def goHasSuf (s suf : String) : Bool :=
  decide (suf.data <:+ s.data)

/-- Go `strings.TrimPrefix s pre`: drop `len(pre)` leading bytes when `pre`
is a prefix of `s`, else return `s` unchanged. -/
def goTrimPre (s pre : String) : String :=
  if goHasPre s pre then String.mk (s.data.drop pre.data.length) else s

/-- Go `strings.TrimSuffix s suf`: drop `len(suf)` trailing bytes when `suf`
is a suffix of `s`, else return `s` unchanged. -/
def goTrimSuf (s suf : String) : String :=
  if goHasSuf s suf then String.mk (s.data.take (s.data.length - suf.data.length)) else s

/-- Go `strconv.Atoi` with the error discarded (`n, _ := strconv.Atoi(s)`):
an optional sign followed by one or more digits parses to its value,
anything else yields 0 (machine-word overflow is not modelled). -/
def goAtoi (s : String) : Int :=
  match s.data with
  | '+' :: rest =>
    match decDigitsVal rest with
    | some n => (n : Int)
    | none => 0
  | '-' :: rest =>
    match decDigitsVal rest with
    | some n => -(n : Int)
    | none => 0
  | cs =>
    match decDigitsVal cs with
    | some n => (n : Int)
    | none => 0

/-- Lowercase hex encoding of a byte list, two digits per byte
(Go `hex.EncodeToString`). -/
def hexEncode (bytes : List Nat) : String :=
  String.mk (bytes.foldr (fun b acc => Nat.digitChar (b / 16 % 16) :: Nat.digitChar (b % 16) :: acc) [])

/-- Go `fmt.Sprintf("%X", bigInt)`: uppercase hex without padding, with a
leading `-` for negative values, `0` for zero. -/
def fmtBigIntHexUpper (i : Int) : String :=
  (if i < 0 then "-" else "") ++ String.mk ((Nat.toDigits 16 i.natAbs).map Char.toUpper)

/-- Go `fmt.Sprintf("%d", n)` for a single int. -/
def fmtInt (i : Int) : String :=
  toString i

/-- Go `fmt.Sprintf("%d", oids)` for a `[]asn1.ObjectIdentifier` (a slice of
int slices): `%d` does NOT invoke the `String()` method, so each OID is
printed as a bracketed, space-separated arc list, e.g.
`[[2 23 140 1 2 1]]` — never in dotted-decimal form. -/
def fmtOIDListPercentD (oids : List (List Nat)) : String :=
  "[" ++ goJoin (oids.map (fun oid => "[" ++ goJoin (oid.map (fun n => toString n)) " " ++ "]")) " " ++ "]"

/-- Standard base64 alphabet (Go `base64.StdEncoding`). -/
def base64Alphabet : List Char :=
  "ABCDEFGHIJKLMNOPQRSTUVWXYZabcdefghijklmnopqrstuvwxyz0123456789+/".data

/-- One base64 output character. -/
def base64Char (n : Nat) : Char :=
  base64Alphabet.getD n 'A'

/-- Go `base64.StdEncoding.EncodeToString` (with `=` padding). -/
def base64Encode : List Nat → String
  | [] => ""
  | [a] =>
    String.mk [base64Char (a / 4 % 64), base64Char (a % 4 * 16)] ++ "=="
  | [a, b] =>
    String.mk [base64Char (a / 4 % 64), base64Char (a % 4 * 16 + b / 16 % 16),
      base64Char (b % 16 * 4)] ++ "="
  | a :: b :: c :: rest =>
    String.mk [base64Char (a / 4 % 64), base64Char (a % 4 * 16 + b / 16 % 16),
      base64Char (b % 16 * 4 + c / 64 % 4), base64Char (c % 64)] ++ base64Encode rest

/-- JSON string escaping as performed by Go `encoding/json` for the ASCII
range (quotes, backslash, HTML-sensitive characters, control characters). -/
def jsonEscapeChar (c : Char) : String :=
  if c = '"' then "\\\""
  else if c = '\\' then "\\\\"
  else if c = '<' then "\\u003c"
  else if c = '>' then "\\u003e"
  else if c = '&' then "\\u0026"
  else if c = '\n' then "\\n"
  else if c = '\r' then "\\r"
  else if c = '\t' then "\\t"
  else if c.toNat < 32 then
    "\\u00" ++ String.mk [Nat.digitChar (c.toNat / 16), Nat.digitChar (c.toNat % 16)]
  else String.singleton c

/-- JSON-escape a whole string. -/
def jsonEscape (s : String) : String :=
  String.join (s.data.map jsonEscapeChar)

/-- A JSON string literal. -/
def jsonStr (s : String) : String :=
  "\"" ++ jsonEscape s ++ "\""

/-- Go map insertion (`m[k] = v`): overwrite the binding when present. -/
def mapInsert (m : List (String × String)) (k v : String) : List (String × String) :=
  if m.any (fun p => p.1 = k) then
    m.map (fun p => if p.1 = k then (k, v) else p)
  else m ++ [(k, v)]

/-- Go map lookup (`v, ok := m[k]`). -/
def mapLookup (m : List (String × String)) (k : String) : Option String :=
  (m.find? (fun p => p.1 = k)).map (fun p => p.2)

/-- One `pkix.AttributeTypeAndValue`: an attribute OID and its value.
Values of DN attributes are directory strings, modelled as `String`. -/
structure AttributeTypeAndValue where
  attrType : List Nat
  value : String
deriving DecidableEq, Repr

/-- Go `pkix.Name` as produced by x509 parsing. Multi-valued fields that the
decoder leaves nil when absent are `[]` here. -/
structure PkixName where
  commonName : String := ""
  serialNumber : String := ""
  country : List String := []
  organization : List String := []
  organizationalUnit : List String := []
  locality : List String := []
  province : List String := []
  streetAddress : List String := []
  postalCode : List String := []
  names : List AttributeTypeAndValue := []
deriving DecidableEq, Repr

/-- The `JSONName` struct of ct-parser.go (JSON version of `pkix.Name`);
`names` holds only the attribute *values* (`name.Names[i].Value`). -/
structure JSONName where
  commonName : String := ""
  serialNumber : String := ""
  country : String := ""
  organization : String := ""
  organizationalUnit : String := ""
  locality : String := ""
  province : String := ""
  streetAddress : String := ""
  postalCode : String := ""
  names : List String := []
deriving DecidableEq, Repr

/-- Modelled from the spec: the `certstream.Subject` record (§3 "subject,
issuer: each {C, CN, L, O, OU, ST, aggregated} where each field is
optional"); the struct definition lives in the repository's
`internal/certstream` package, which is not under src/. Pointer fields are
`Option String` (`none` = nil). -/
structure SubjectS where
  c : Option String := none
  cn : Option String := none
  l : Option String := none
  o : Option String := none
  ou : Option String := none
  st : Option String := none
  aggregated : Option String := none
deriving DecidableEq, Repr

/-- Modelled from the spec: the `certstream.Extensions` record (§3);
defined in the repository's `internal/certstream` package (not under src/).
Pointer fields are `Option String`. -/
structure ExtensionsS where
  authorityKeyIdentifier : Option String := none
  subjectKeyIdentifier : Option String := none
  keyUsage : Option String := none
  basicConstraints : Option String := none
  subjectAltName : Option String := none
  authorityInfoAccess : Option String := none
  ctlPoisonByte : Bool := false
deriving DecidableEq, Repr

/-- Modelled from the spec: `cert_type_ext` (§3). Counts are Go ints. -/
structure CertTypeExtS where
  sanCount : Int := 0
  wildcardSANCount : Int := 0
  singleSANCount : Int := 0
deriving DecidableEq, Repr

/-- Modelled from the spec: the `certstream.LeafCert` record (§3); struct
defined in `internal/certstream` (not under src/), fields as used by
ct-parser.go. -/
structure LeafCert where
  allDomains : List String := []
  allRegDomains : List String := []
  extensions : ExtensionsS := {}
  notAfter : Int := 0
  notBefore : Int := 0
  serialNumber : String := ""
  signatureAlgorithm : String := ""
  keyType : String := ""
  isCA : Bool := false
  subject : SubjectS := {}
  issuer : SubjectS := {}
  asDER : String := ""
  fingerprint : String := ""
  sha1 : String := ""
  sha256 : String := ""
  validationType : String := ""
  certType : String := ""
  certTypeExt : CertTypeExtS := {}
  caOwner : String := ""
deriving DecidableEq, Repr

/-- Go zero value of `certstream.LeafCert`. -/
def emptyLeafCert : LeafCert := {}

/-- Modelled from the spec: `data.source` (§3). -/
structure SourceS where
  name : String := ""
  url : String := ""
  operator : String := ""
  normalizedURL : String := ""
deriving DecidableEq, Repr

/-- Modelled from the spec: `certstream.Data` (§3). `seen` is the wall-clock
in seconds with millisecond precision; the Go value
`float64(UnixMilli())/1_000` is modelled exactly as a rational. -/
structure DataS where
  certIndex : Int := 0
  certLink : String := ""
  seen : Rat := 0
  source : SourceS := {}
  updateType : String := ""
  leafCert : LeafCert := {}
  chain : List LeafCert := []
deriving DecidableEq, Repr

/-- Modelled from the spec: `certstream.Entry` (§3). -/
structure EntryS where
  data : DataS := {}
  messageType : String := ""
deriving DecidableEq, Repr

/-- The certificate fields of `x509.Certificate` read by ct-parser.go.
`parsedKeyBitLen` is the oracle for `x509.ParsePKIXPublicKey` on
`RawSubjectPublicKeyInfo`: the bit length of the key parameter used by
`parseKeyType` (RSA modulus N / DSA Y / ECDSA X), `none` when parsing
fails. `ipAddresses` carries the `ip.String()` renderings. `extensions`
carries the extension OIDs in certificate order (only `Extension.Id` is
read by the code). -/
structure XCert where
  raw : List Nat := []
  dnsNames : List String := []
  emailAddresses : List String := []
  ipAddresses : List String := []
  notBefore : Int := 0
  notAfter : Int := 0
  serialNumber : Int := 0
  signatureAlgorithm : Nat := 0
  publicKeyAlgorithm : Nat := 0
  parsedKeyBitLen : Option Nat := none
  isCA : Bool := false
  subject : PkixName := {}
  issuer : PkixName := {}
  extensions : List (List Nat) := []
  authorityKeyId : List Nat := []
  subjectKeyId : List Nat := []
  keyUsage : Nat := 0
  issuingCertificateURL : List String := []
  ocspServer : List String := []
  policyIdentifiers : List (List Nat) := []
deriving DecidableEq, Repr

/-- `ct.Precert`: the parsed TBS certificate plus the submitted DER bytes
(`Precert.Submitted.Data`). -/
structure PrecertS where
  tbsCertificate : XCert
  submitted : List Nat := []
deriving DecidableEq, Repr

/-- The parts of `ct.LogEntry` read by parseData: the final certificate or
the precertificate, and the chain's DER blobs (`ASN1Cert.Data`). -/
structure LogEntryS where
  x509Cert : Option XCert := none
  precert : Option PrecertS := none
  chain : List (List Nat) := []
deriving DecidableEq, Repr

/-- The parts of `ct.RawLogEntry` read by the parser: the tree index, the
leaf-cert bytes `entry.Cert.Data`, and the oracle for the external
`entry.ToLogEntry()` conversion (`none` = conversion error). -/
structure RawLogEntryS where
  index : Int := 0
  certData : List Nat := []
  toLogEntryResult : Option LogEntryS := none
deriving DecidableEq, Repr

/-- Oracles for the external libraries used by the parser, plus the
process-wide `CAOwners` map snapshot read by `leafCertFromX509cert`.
`pslETLDPlusOne` is `psl.EffectiveTLDPlusOne` (`none` = error);
`parseIP` is `net.ParseIP(s) != nil`;
`sha1Bytes` / `sha256Bytes` produce raw digests;
`parseCertificate` is `x509.ParseCertificate` (`none` = error). -/
structure Env where
  pslETLDPlusOne : String → Option String
  parseIP : String → Bool
  sha1Bytes : List Nat → List Nat
  sha256Bytes : List Nat → List Nat
  parseCertificate : List Nat → Option XCert
  caOwners : List (String × String)

/-- `json.Marshal` on the `JSONName` struct: fields in declaration order,
snake-case keys from the struct tags, `omitempty` semantics (empty strings
and empty `names` slices are omitted). -/
def marshalJSONName (n : JSONName) : String :=
  let strField := fun (key v : String) => if v = "" then ([] : List String) else [jsonStr key ++ ":" ++ jsonStr v]
  let fields :=
    strField "common_name" n.commonName ++
    strField "serial_number" n.serialNumber ++
    strField "country" n.country ++
    strField "organization" n.organization ++
    strField "organizational_unit" n.organizationalUnit ++
    strField "locality" n.locality ++
    strField "province" n.province ++
    strField "street_address" n.streetAddress ++
    strField "postal_code" n.postalCode ++
    (if n.names = [] then [] else [jsonStr "names" ++ ":[" ++ goJoin (n.names.map jsonStr) "," ++ "]"])
  "\x7b" ++ goJoin fields "," ++ "\x7d"

/-- ct-parser.go `ParseNameJSON`: joins each multi-valued DN field with `,`
and collects only the `Value` of each `Names` entry (the attribute OIDs in
`Names[i].Type` are dropped). -/
def ParseNameJSON (name : PkixName) : JSONName :=
  { commonName := name.commonName
    serialNumber := name.serialNumber
    country := goJoin name.country ","
    organization := goJoin name.organization ","
    organizationalUnit := goJoin name.organizationalUnit ","
    locality := goJoin name.locality ","
    province := goJoin name.province ","
    streetAddress := goJoin name.streetAddress ","
    postalCode := goJoin name.postalCode ","
    names := name.names.map (fun entry => entry.value) }

/-- ct-parser.go `parseName`: nil input yields a nil pointer, otherwise the
values joined with `,` (manual loop equivalent to `strings.Join`). -/
def parseName (input : List String) : Option String :=
  match input with
  | [] => none
  | _ => some (input.foldl (fun result s => if result.length > 0 then result ++ "," ++ s else result ++ s) "")

/-- ct-parser.go `buildSubject`: C/L/O/OU/ST via `parseName`, `CN` is the
address of the `CommonName` field (never nil), `Aggregated` is the address
of the marshalled `ParseNameJSON` string (never nil). -/
def buildSubject (certSubject : PkixName) : SubjectS :=
  let subject : SubjectS :=
    { c := parseName certSubject.country
      cn := some certSubject.commonName
      l := parseName certSubject.locality
      o := parseName certSubject.organization
      ou := parseName certSubject.organizationalUnit
      st := parseName certSubject.streetAddress }
  let jsonSubject := marshalJSONName (ParseNameJSON certSubject)
  { subject with aggregated := some jsonSubject }

/-- Adjacent pairs of a hex string's characters. -/
def hexPairs : List Char → List String
  | a :: b :: rest => String.mk [a, b] :: hexPairs rest
  | _ => []

/-- ct-parser.go `formatKeyID`: `keyid:` followed by colon-separated
lowercase hex byte pairs (the loop prepends `:` to every pair and then
`strings.TrimLeft`s the leading colon). -/
def formatKeyID (keyID : List Nat) : String :=
  let tmp := hexEncode keyID
  let digest := (hexPairs tmp.data).foldl (fun d p => d ++ ":" ++ p) ""
  "keyid:" ++ digest.dropWhile (fun c => c = ':')

/-- ct-parser.go `formatKeyIDShort`: plain lowercase hex, no separators. -/
def formatKeyIDShort (keyID : List Nat) : String :=
  (hexEncode keyID).toLower

/-- ct-parser.go `formatSerialNumber`: `%X` of the big int, left-padded with
`0` to even length. -/
def formatSerialNumber (serialNumber : Int) : String :=
  let sn := fmtBigIntHexUpper serialNumber
  if sn.length % 2 = 1 then "0" ++ sn else sn

/-- Interleave `:` before every character at an even index other than 0
(the output loop of ct-parser.go `calculateHash`). -/
def colonizeChars : List Char → Nat → List Char
  | [], _ => []
  | c :: cs, i => (if i % 2 = 0 ∧ i > 0 then [':'] else []) ++ c :: colonizeChars cs (i + 1)

/-- ct-parser.go `calculateHash`: `%02x` of the digest (lowercase hex),
uppercased, then colon-separated in pairs. The `Write` error branch is
unreachable for SHA hashers (hash.Hash.Write never fails). -/
def calculateHash (data : List Nat) (certHasher : List Nat → List Nat) : String :=
  let certHash := (hexEncode (certHasher data)).toUpper
  String.mk (colonizeChars certHash.data 0)

/-- ct-parser.go `calculateSHA1`. -/
def calculateSHA1 (env : Env) (data : List Nat) : String :=
  calculateHash data env.sha1Bytes

/-- ct-parser.go `calculateSHA256`. -/
def calculateSHA256 (env : Env) (data : List Nat) : String :=
  calculateHash data env.sha256Bytes

/-- ct-parser.go `parseKeyType`: the `PublicKeyAlgorithm` values are the
crypto/x509 iota constants (0 unknown, 1 RSA, 2 DSA, 3 ECDSA); a failed
`ParsePKIXPublicKey` (oracle `none`) falls through to `"Unknown"`. -/
def parseKeyType (keyAlg : Nat) (parsedKeyBitLen : Option Nat) : String :=
  match keyAlg with
  | 0 => "Unknown"
  | 1 =>
    match parsedKeyBitLen with
    | some bits => "RSA" ++ toString bits
    | none => "Unknown"
  | 2 =>
    match parsedKeyBitLen with
    | some bits => "DSA" ++ toString bits
    | none => "Unknown"
  | 3 =>
    match parsedKeyBitLen with
    | some bits => "ECDSA" ++ toString bits
    | none => "Unknown"
  | _ => "Unknown"

/-- ct-parser.go `parseSignatureAlgorithm`; the numbering is the
crypto/x509 `SignatureAlgorithm` iota order (0 = unknown, 1 = MD2WithRSA,
…, 13–15 = RSAPSS variants, 16 = PureEd25519). -/
def parseSignatureAlgorithm (signatureAlgoritm : Nat) : String :=
  match signatureAlgoritm with
  | 1 => "MD2WithRSA"
  | 2 => "MD5WithRSA"
  | 3 => "SHA1WithRSA"
  | 4 => "SHA256WithRSA"
  | 5 => "SHA384WithRSA"
  | 6 => "SHA512WithRSA"
  | 13 => "SHA256WithRSAPSS"
  | 14 => "SHA384WithRSAPSS"
  | 15 => "SHA512WithRSAPSS"
  | 7 => "DSAWithSHA1"
  | 8 => "DSAWithSHA256"
  | 9 => "ECDSAWithSHA1"
  | 10 => "ECDSAWithSHA256"
  | 11 => "ECDSAWithSHA384"
  | 12 => "ECDSAWithSHA512"
  | 16 => "PureEd25519"
  | _ => "unknown"

/-- The accumulation of ct-parser.go `commaAppend` over a buffer: items
joined by `", "`. -/
def commaJoin (items : List String) : String :=
  items.foldl (fun buf s => if buf.length > 0 then buf ++ ", " ++ s else buf ++ s) ""

/-- ct-parser.go `keyUsageToString`: the x509.KeyUsage bit flags in their
crypto/x509 order. -/
def keyUsageToString (k : Nat) : String :=
  commaJoin (
    (if k &&& 1 ≠ 0 then ["Digital Signature"] else []) ++
    (if k &&& 2 ≠ 0 then ["Content Commitment"] else []) ++
    (if k &&& 4 ≠ 0 then ["Key Encipherment"] else []) ++
    (if k &&& 8 ≠ 0 then ["Data Encipherment"] else []) ++
    (if k &&& 16 ≠ 0 then ["Key Agreement"] else []) ++
    (if k &&& 32 ≠ 0 then ["Certificate Signing"] else []) ++
    (if k &&& 64 ≠ 0 then ["CRL Signing"] else []) ++
    (if k &&& 128 ≠ 0 then ["Encipher Only"] else []) ++
    (if k &&& 256 ≠ 0 then ["Decipher Only"] else []))

/-- x509.OIDExtensionSubjectKeyId. -/
def oidExtensionSubjectKeyId : List Nat := [2, 5, 29, 14]

/-- x509.OIDExtensionKeyUsage. -/
def oidExtensionKeyUsage : List Nat := [2, 5, 29, 15]

/-- x509.OIDExtensionSubjectAltName. -/
def oidExtensionSubjectAltName : List Nat := [2, 5, 29, 17]

/-- x509.OIDExtensionBasicConstraints. -/
def oidExtensionBasicConstraints : List Nat := [2, 5, 29, 19]

/-- x509.OIDExtensionAuthorityKeyId. -/
def oidExtensionAuthorityKeyId : List Nat := [2, 5, 29, 35]

/-- x509.OIDExtensionAuthorityInfoAccess. -/
def oidExtensionAuthorityInfoAccess : List Nat := [1, 3, 6, 1, 5, 5, 7, 1, 1]

/-- x509.OIDExtensionCTPoison. -/
def oidExtensionCTPoison : List Nat := [1, 3, 6, 1, 4, 1, 11129, 2, 4, 3]

/-- The per-SAN body of the `for _, domain := range leafCert.AllDomains`
loop: which value gets appended to `regDomainSlice` — the raw SAN for IP
literals (`net.ParseIP(domain) != nil`), the registrable domain when
`psl.EffectiveTLDPlusOne` succeeds, and the raw SAN again on its error. -/
def regDomainOf (env : Env) (domain : String) : String :=
  if env.parseIP domain then domain
  else
    match env.pslETLDPlusOne domain with
    | some regDomain => regDomain
    | none => domain

/-- One iteration of the SAN loop of `leafCertFromX509cert`, threading
`(wildcardCount, regDomainSlice, domainAlreadyAdded)`. -/
def domainScanStep (env : Env) (cn : String) (acc : Nat × List String × Bool) (domain : String) :
    Nat × List String × Bool :=
  let wildcardCount := if goContains domain "*" then acc.1 + 1 else acc.1
  let regDomainSlice := acc.2.1 ++ [regDomainOf env domain]
  let domainAlreadyAdded := if domain = cn then true else acc.2.2
  (wildcardCount, regDomainSlice, domainAlreadyAdded)

/-- The `seenRegDomain` de-duplication loop of `leafCertFromX509cert`:
drop every repetition, keeping first occurrences (membership in the
accumulated result coincides with the source's `seenRegDomain` map). -/
def goDedupFirst (l : List String) : List String :=
  l.foldl (fun acc v => if acc.contains v then acc else acc ++ [v]) []

/-- ct-parser.go `leafCertFromX509cert`. Returns `none` exactly when one of
the unconditional pointer dereferences (`*leafCert.Subject.CN`,
`*leafCert.Subject.Aggregated`) would fault. -/
def leafCertFromX509cert (env : Env) (cert : XCert) : Option LeafCert :=
  let leafCert0 : LeafCert :=
    { allDomains := cert.dnsNames
      extensions := {}
      notAfter := cert.notAfter
      notBefore := cert.notBefore
      serialNumber := formatSerialNumber cert.serialNumber
      signatureAlgorithm := parseSignatureAlgorithm cert.signatureAlgorithm
      keyType := parseKeyType cert.publicKeyAlgorithm cert.parsedKeyBitLen
      isCA := cert.isCA }
  -- The `if leafCert.AllDomains == nil { AllDomains = []string{} }`
  -- normalisation is the identity in the List model.
  let leafCert1 := { leafCert0 with subject := buildSubject cert.subject }
  leafCert1.subject.cn.bind fun cn =>
  leafCert1.subject.aggregated.bind fun aggregated =>
  let scanResult : Nat × List String × List String :=
    if cn ≠ "" ∧ leafCert1.isCA = false then
      let r := leafCert1.allDomains.foldl (domainScanStep env cn) (0, [], false)
      (r.1, r.2.1, if r.2.2 = false then leafCert1.allDomains ++ [cn] else leafCert1.allDomains)
    else
      (0, [], leafCert1.allDomains)
  let wildcardCount := scanResult.1
  let regDomainSlice := scanResult.2.1
  let allDomains2 := scanResult.2.2
  let leafCert2 :=
    { leafCert1 with
        allDomains := allDomains2
        issuer := buildSubject cert.issuer
        asDER := base64Encode cert.raw
        fingerprint := calculateSHA1 env cert.raw
        sha1 := calculateSHA1 env cert.raw
        sha256 := calculateSHA256 env cert.raw }
  let sanValue := commaJoin (cert.dnsNames.map (fun n => "DNS:" ++ n)
      ++ cert.emailAddresses.map (fun email => "email:" ++ email)
      ++ cert.ipAddresses.map (fun ip => "IP Address:" ++ ip))
  let aiaValue := commaJoin (cert.issuingCertificateURL.map (fun issuer => "URI:" ++ issuer)
      ++ cert.ocspServer.map (fun ocsp => "URI:" ++ ocsp))
  let exts := cert.extensions.foldl (fun e extID =>
      if extID = oidExtensionAuthorityKeyId then
        { e with authorityKeyIdentifier := some (formatKeyIDShort cert.authorityKeyId) }
      else if extID = oidExtensionKeyUsage then
        { e with keyUsage := some (keyUsageToString cert.keyUsage) }
      else if extID = oidExtensionSubjectKeyId then
        { e with subjectKeyIdentifier := some (formatKeyID cert.subjectKeyId) }
      else if extID = oidExtensionBasicConstraints then
        { e with basicConstraints := some (("CA:" ++ (if cert.isCA then "true" else "false")).toUpper) }
      else if extID = oidExtensionSubjectAltName then
        { e with subjectAltName := some sanValue }
      else if extID = oidExtensionAuthorityInfoAccess then
        { e with authorityInfoAccess := some aiaValue }
      else if extID = oidExtensionCTPoison then
        { e with ctlPoisonByte := true }
      else e) leafCert2.extensions
  let policyOIDsString := fmtOIDListPercentD cert.policyIdentifiers
  let vt1 :=
    if goContains policyOIDsString "2.23.140.1.2.1" then "DV"
    else if goContains policyOIDsString "2.23.140.1.2.2" then "OV"
    else if goContains policyOIDsString "2.23.140.1.2.3" then "IV"
    else if goContains policyOIDsString "2.23.140.1.1" then "EV"
    else "OV"
  let vt2 := if leafCert1.subject.o = none then "DV" else vt1
  let vt3 := if goContains aggregated "1.3.6.1.4.1.311.60.2.1.3" then "EV" else vt2
  let certType :=
    if wildcardCount > 0 then "Wildcard"
    else if allDomains2.length > 2 then "Multi"
    else "Single"
  let certTypeExt : CertTypeExtS :=
    { sanCount := (allDomains2.length : Int)
      wildcardSANCount := (wildcardCount : Int)
      singleSANCount := (allDomains2.length : Int) - (wildcardCount : Int) }
  let leafAKI := formatKeyIDShort cert.authorityKeyId
  let caOwner :=
    match mapLookup env.caOwners leafAKI with
    | some caOwnerCheck => caOwnerCheck
    | none => "unknown"
  some { leafCert2 with
           extensions := exts
           validationType := vt3
           certType := certType
           certTypeExt := certTypeExt
           allRegDomains := goDedupFirst regDomainSlice
           caOwner := caOwner }

/-- ct-parser.go `parseCertificateChain`: parse each chain blob and build
its leaf-cert record, preserving order; any parse error aborts. -/
def parseCertificateChain (env : Env) (logEntry : LogEntryS) : Option (List LeafCert) :=
  logEntry.chain.mapM (fun chainEntry =>
    match env.parseCertificate chainEntry with
    | none => none
    | some myCert => leafCertFromX509cert env myCert)

/-- ct-watcher.go `normalizeCtlogURL`: trim one `https://` prefix, then one
`http://` prefix, then one trailing `/`. -/
def normalizeCtlogURL (input : String) : String :=
  let input1 := goTrimPre input "https://"
  let input2 := goTrimPre input1 "http://"
  goTrimSuf input2 "/"

/-- ct-parser.go `parseData`. `nowMilli` is the `time.Now().UnixMilli()`
reading; `seen` is that value divided by 1 000 (exact as a rational).
Result `none` models every `return certstream.Data{}, err` path. -/
def parseData (env : Env) (nowMilli : Int) (entry : RawLogEntryS)
    (operatorName logName ctURL : String) : Option DataS :=
  let certLink := ctURL ++ "/ct/v1/get-entries?start=" ++ fmtInt entry.index
      ++ "&end=" ++ fmtInt entry.index
  let data0 : DataS :=
    { certIndex := entry.index
      certLink := certLink
      seen := (nowMilli : Rat) / 1000
      source :=
        { name := logName
          url := ctURL
          operator := operatorName
          normalizedURL := normalizeCtlogURL ctURL }
      updateType := "X509LogEntry"
      leafCert := emptyLeafCert
      chain := [] }
  match entry.toLogEntryResult with
  | none => none
  | some logEntry =>
    let selected : Option (XCert × List Nat × Bool) :=
      match logEntry.x509Cert with
      | some c => some (c, c.raw, false)
      | none =>
        match logEntry.precert with
        | some p => some (p.tbsCertificate, p.submitted, true)
        | none => none
    match selected with
    | none => none
    | some (cert, rawData, isPrecert) =>
      match leafCertFromX509cert env cert with
      | none => none
      | some lc0 =>
        let lc1 :=
          if isPrecert then
            { lc0 with
                fingerprint := calculateSHA1 env rawData
                sha1 := calculateSHA1 env rawData
                sha256 := calculateSHA256 env rawData }
          else lc0
        let lc2 := { lc1 with asDER := base64Encode entry.certData }
        match parseCertificateChain env logEntry with
        | none => none
        | some chain => some { data0 with leafCert := lc2, chain := chain }

/-- ct-parser.go `parseCertstreamEntry`: nil raw entries and parse failures
yield an error (`none`); otherwise wrap the data with
`message_type = "certificate_update"`. -/
def parseCertstreamEntry (env : Env) (nowMilli : Int) (rawEntry : Option RawLogEntryS)
    (operatorName logname ctURL : String) : Option EntryS :=
  match rawEntry with
  | none => none
  | some e =>
    (parseData env nowMilli e operatorName logname ctURL).map
      (fun data => { data := data, messageType := "certificate_update" })

/-- ct-watcher.go `runWorker`, start-index selection: default to the STH
tree size; for each configured `StartIndex` token, when the *whole token*
is a substring of the worker URL (the source checks
`strings.Contains(w.ctURL, element)`), split the token on spaces and use
field 1 via `strconv.Atoi` when positive. A token without a space that
matches would make `logStartIndex[1]` panic (`none`). -/
def computeLogStart (treeSize : Int) (startIndexCfg : List String) (ctURL : String) : Option Int :=
  startIndexCfg.foldlM (fun logStart element =>
    if goContains ctURL element then
      let logStartIndex := goSplitChar element ' '
      match logStartIndex.get? 1 with
      | none => none
      | some fieldOne =>
        let newStartIndex := goAtoi fieldOne
        some (if newStartIndex > 0 then newStartIndex else logStart)
    else some logStart) treeSize

/-- The observable outcome of the HTTP + CSV-reader layer inside
`DownloadAndParseCSV`: the request failed on all retries, or the reader
yields these records and then EOF, or yields these records and then a
non-EOF read error. -/
inductive CSVFetchOutcome where
  | httpFailure
  | body (rows : List (List String))
  | bodyWithReadError (rows : List (List String))
deriving DecidableEq, Repr

/-- ct-watcher.go `DownloadAndParseCSV` with the network/CSV layer
abstracted into `outcome` and `base64.StdEncoding.DecodeString` (error
discarded) abstracted into `b64decode`. Returns `none` — the Go pair
`(nil, err)` — on every error path: download failure after the 3 retries,
EOF before the first row, key or value column index out of range, or a
non-EOF record read error. encoding/csv enforces a uniform field count per
record, so the `record[...]` accesses are in range (`getD`). -/
def DownloadAndParseCSV (b64decode : String → List Nat) (outcome : CSVFetchOutcome)
    (keyColIndex valueColIndex : Nat) (skipHeader : Bool) : Option (List (String × String)) :=
  match outcome with
  | .httpFailure => none
  | .bodyWithReadError _ => none
  | .body rows =>
    match rows with
    | [] => none
    | firstRow :: rest =>
      if keyColIndex ≥ firstRow.length then none
      else if valueColIndex ≥ firstRow.length then none
      else
        let init := if skipHeader = false then
            mapInsert [] (firstRow.getD keyColIndex "") (firstRow.getD valueColIndex "")
          else []
        some (rest.foldl (fun result record =>
          let decodedBytes := b64decode (record.getD keyColIndex "")
          let hexKey := (hexEncode decodedBytes).toLower
          mapInsert result hexKey (record.getD valueColIndex "")) init)

/-- The catalog-refresh step of ct-watcher.go `addNewlyAvailableLogs`:
`CAOwners, _ = DownloadAndParseCSV(ccadbURL, 18, 0, true)`. The previous
catalog (`prevCAOwners`) is overwritten unconditionally with the first
component of the returned pair — which is the nil map on failure. -/
def updateCAOwnersStep (prevCAOwners : Option (List (String × String)))
    (b64decode : String → List Nat) (outcome : CSVFetchOutcome) :
    Option (List (String × String)) :=
  DownloadAndParseCSV b64decode outcome 18 0 true

/-- An environment with trivial oracles: no domain resolves through the
public-suffix list, nothing is an IP literal, digests are empty, chain
blobs do not parse, and the CA-owner catalog is empty. -/
def testEnv : Env :=
  { pslETLDPlusOne := fun _ => none
    parseIP := fun _ => false
    sha1Bytes := fun _ => []
    sha256Bytes := fun _ => []
    parseCertificate := fun _ => none
    caOwners := [] }

/-- A certificate carrying the CA/Browser-Forum IV policy OID 2.23.140.1.2.3
with an Organization present and no jurisdiction marker. -/
def c2cert : XCert :=
  { dnsNames := ["a.com"]
    subject := { commonName := "a.com", organization := ["Acme"] }
    policyIdentifiers := [[2, 23, 140, 1, 2, 3]] }

/-- A certificate whose subject DN carries a jurisdictionCountry
(1.3.6.1.4.1.311.60.2.1.3) attribute with value "DE", plus an
Organization. -/
def c3cert : XCert :=
  { subject :=
      { commonName := "a.com"
        organization := ["Acme"]
        names := [⟨[1, 3, 6, 1, 4, 1, 311, 60, 2, 1, 3], "DE"⟩] } }

/-- A CA certificate with one DNS SAN and a non-empty CN. -/
def c4cert : XCert :=
  { dnsNames := ["example.com"]
    isCA := true
    subject := { commonName := "x" } }

/-- A non-CA certificate with a duplicated DNS SAN and an empty CN. -/
def c5cert : XCert :=
  { dnsNames := ["a.com", "a.com"]
    subject := { commonName := "" } }

/-- testEnv with identity digest oracles, so distinct inputs have distinct
digests. -/
def c7env : Env :=
  { testEnv with sha1Bytes := fun l => l, sha256Bytes := fun l => l }

/-- A precertificate whose submitted DER ([1]) differs from its TBS DER
([2]). -/
def c7precert : PrecertS :=
  { tbsCertificate := { raw := [2] }, submitted := [1] }

/-- A raw precert log entry wrapping c7precert. -/
def c7rawEntry : RawLogEntryS :=
  { index := 7, certData := [1], toLogEntryResult := some { precert := some c7precert } }

/-- A minimal raw X.509 log entry that parses successfully. -/
def c8rawEntry : RawLogEntryS :=
  { index := 1, certData := [], toLogEntryResult := some { x509Cert := some {} } }

/-- Zero out the `seen` timestamp of an entry (to compare parses taken at
different wall-clock instants field-by-field). -/
def clearSeen (e : EntryS) : EntryS :=
  { e with data := { e.data with seen := 0 } }

theorem buildSubject_cn (name : PkixName) : (buildSubject name).cn = some name.commonName := rfl

theorem buildSubject_aggregated (name : PkixName) :
    (buildSubject name).aggregated = some (marshalJSONName (ParseNameJSON name)) := rfl

theorem strDataAppend (s t : String) : (s ++ t).data = s.data ++ t.data := rfl

theorem digitChar_ne_dot (n : Nat) : Nat.digitChar n ≠ '.' := by
  unfold Nat.digitChar
  rcases Nat.lt_or_ge n 16 with h | h
  · interval_cases n <;> decide
  · have hne : ∀ k : Nat, k < 16 → ¬(n = k) := by intro k hk; omega
    rw [if_neg (hne 0 (by norm_num)), if_neg (hne 1 (by norm_num)), if_neg (hne 2 (by norm_num)),
      if_neg (hne 3 (by norm_num)), if_neg (hne 4 (by norm_num)), if_neg (hne 5 (by norm_num)),
      if_neg (hne 6 (by norm_num)), if_neg (hne 7 (by norm_num)), if_neg (hne 8 (by norm_num)),
      if_neg (hne 9 (by norm_num)), if_neg (hne 10 (by norm_num)), if_neg (hne 11 (by norm_num)),
      if_neg (hne 12 (by norm_num)), if_neg (hne 13 (by norm_num)), if_neg (hne 14 (by norm_num)),
      if_neg (hne 15 (by norm_num))]
    decide

theorem toDigitsCore_ne_dot (b f : Nat) :
    ∀ (n : Nat) (acc : List Char), (∀ c ∈ acc, c ≠ '.') →
      ∀ c ∈ Nat.toDigitsCore b f n acc, c ≠ '.' := by
  induction f with
  | zero =>
    intro n acc hacc c hc
    exact hacc c hc
  | succ f ih =>
    intro n acc hacc c hc
    simp only [Nat.toDigitsCore] at hc
    split at hc
    · rcases List.mem_cons.mp hc with h1 | h1
      · rw [h1]; exact digitChar_ne_dot _
      · exact hacc c h1
    · refine ih _ _ ?_ c hc
      intro c2 hc2
      rcases List.mem_cons.mp hc2 with h1 | h1
      · rw [h1]; exact digitChar_ne_dot _
      · exact hacc c2 h1

theorem toString_nat_ne_dot (n : Nat) : ∀ c ∈ (toString n).data, c ≠ '.' := by
  intro c hc
  exact toDigitsCore_ne_dot 10 (n + 1) n [] (by intro c2 hc2; cases hc2) c hc

theorem not_dot_of_mem (s : String) (hs : ('.' : Char) ∉ s.data) {c : Char} (hc : c ∈ s.data) :
    c ≠ '.' :=
  fun he => hs (he ▸ hc)

theorem goJoin_mem (a : List String) (sep : String) :
    ∀ c ∈ (goJoin a sep).data, c ∈ sep.data ∨ ∃ s ∈ a, c ∈ s.data := by
  unfold goJoin
  match a with
  | [] => intro c hc; cases hc
  | x :: xs =>
    have key : ∀ (l : List String) (acc : String),
        ∀ c ∈ (l.foldl (fun acc s => acc ++ sep ++ s) acc).data,
          c ∈ acc.data ∨ c ∈ sep.data ∨ ∃ s ∈ l, c ∈ s.data := by
      intro l
      induction l with
      | nil => intro acc c hc; exact Or.inl hc
      | cons y ys ih =>
        intro acc c hc
        rcases ih (acc ++ sep ++ y) c hc with h1 | h1 | h1
        · rw [strDataAppend, strDataAppend] at h1
          rcases List.mem_append.mp h1 with h2 | h2
          · rcases List.mem_append.mp h2 with h3 | h3
            · exact Or.inl h3
            · exact Or.inr (Or.inl h3)
          · exact Or.inr (Or.inr ⟨y, by simp, h2⟩)
        · exact Or.inr (Or.inl h1)
        · rcases h1 with ⟨s, hs, hcs⟩
          exact Or.inr (Or.inr ⟨s, by simp [hs], hcs⟩)
    intro c hc
    rcases key xs x c hc with h1 | h1 | h1
    · exact Or.inr ⟨x, by simp, h1⟩
    · exact Or.inl h1
    · rcases h1 with ⟨s, hs, hcs⟩
      exact Or.inr ⟨s, by simp [hs], hcs⟩

/-- No character of the `%d` rendering of a policy-OID list is a dot. -/
theorem fmtOIDList_no_dot (oids : List (List Nat)) :
    ∀ c ∈ (fmtOIDListPercentD oids).data, c ≠ '.' := by
  intro c hc
  unfold fmtOIDListPercentD at hc
  rw [strDataAppend, strDataAppend] at hc
  rcases List.mem_append.mp hc with h1 | h1
  · rcases List.mem_append.mp h1 with h2 | h2
    · exact not_dot_of_mem "[" (by decide) h2
    · rcases goJoin_mem _ _ c h2 with h3 | h3
      · exact not_dot_of_mem " " (by decide) h3
      · rcases h3 with ⟨s, hs, hcs⟩
        rcases List.mem_map.mp hs with ⟨oid, _, rfl⟩
        rw [strDataAppend, strDataAppend] at hcs
        rcases List.mem_append.mp hcs with h4 | h4
        · rcases List.mem_append.mp h4 with h5 | h5
          · exact not_dot_of_mem "[" (by decide) h5
          · rcases goJoin_mem _ _ c h5 with h6 | h6
            · exact not_dot_of_mem " " (by decide) h6
            · rcases h6 with ⟨s2, hs2, hcs2⟩
              rcases List.mem_map.mp hs2 with ⟨arc, _, rfl⟩
              exact toString_nat_ne_dot arc c hcs2
        · exact not_dot_of_mem "]" (by decide) h4
  · exact not_dot_of_mem "]" (by decide) h1

/-- Any pattern containing a dot — in particular every dotted-decimal OID —
is never a substring of the `%d` rendering that ct-parser.go matches
against. -/
theorem policy_dotted_contains_false (oids : List (List Nat)) (pat : String)
    (hdot : ('.' : Char) ∈ pat.data) :
    goContains (fmtOIDListPercentD oids) pat = false := by
  apply decide_eq_false
  intro hinf
  exact fmtOIDList_no_dot oids '.' (hinf.subset hdot) rfl

theorem domainScan_reg (env : Env) (cn : String) (l : List String) (acc : Nat × List String × Bool) :
    (l.foldl (domainScanStep env cn) acc).2.1 = acc.2.1 ++ l.map (regDomainOf env) := by
  induction l generalizing acc with
  | nil => simp
  | cons d t ih => simp [List.foldl_cons, domainScanStep, ih]

theorem domainScan_added (env : Env) (cn : String) (l : List String) (acc : Nat × List String × Bool) :
    (l.foldl (domainScanStep env cn) acc).2.2 = (acc.2.2 || l.any (fun d => d = cn)) := by
  induction l generalizing acc with
  | nil => simp
  | cons d t ih =>
    by_cases hd : d = cn
    · simp [List.foldl_cons, domainScanStep, hd, ih]
    · simp [List.foldl_cons, domainScanStep, hd, ih]

theorem trimSuf_keeps_no_pre (u p suf : String) (h : goHasPre u p = false) :
    goHasPre (goTrimSuf u suf) p = false := by
  unfold goTrimSuf
  by_cases hs : goHasSuf u suf
  · simp only [hs, if_true]
    simp only [goHasPre] at h ⊢
    apply decide_eq_false
    intro hpre
    have hp2 : p.data <+: u.data := hpre.trans (List.take_prefix _ _)
    exact (decide_eq_false_iff_not.mp h) hp2
  · simpa [hs] using h

theorem take_one_less_no_slash (l : List Char)
    (h2 : ¬(['/', '/'] <:+ l)) (h1 : ['/'] <:+ l) :
    ¬(['/'] <:+ l.take (l.length - 1)) := by
  obtain ⟨t, ht⟩ := h1
  intro hc
  rw [← ht] at hc
  have hlen : (t ++ ['/']).length - 1 = t.length := by simp
  rw [hlen, List.take_left] at hc
  obtain ⟨t2, ht2⟩ := hc
  apply h2
  refine ⟨t2, ?_⟩
  rw [← ht, ← ht2]
  simp

theorem trimSuf_slash_no_suf (u : String) (h : goHasSuf u "//" = false) :
    goHasSuf (goTrimSuf u "/") "/" = false := by
  unfold goTrimSuf
  by_cases hs : goHasSuf u "/"
  · simp only [hs, if_true]
    show decide (("/".data) <:+ u.data.take (u.data.length - ("/".data).length)) = false
    apply decide_eq_false
    have hd : "/".data = ['/'] := rfl
    have hdd : "//".data = ['/', '/'] := rfl
    rw [hd]
    have h1 : ['/'] <:+ u.data := by
      have h1a : ("/".data) <:+ u.data := of_decide_eq_true hs
      rwa [hd] at h1a
    have h2 : ¬(['/', '/'] <:+ u.data) := by
      have h2a : ¬(("//".data) <:+ u.data) := decide_eq_false_iff_not.mp h
      rwa [hdd] at h2a
    have hlen1 : (['/'] : List Char).length = 1 := rfl
    rw [hlen1]
    exact take_one_less_no_slash u.data h2 h1
  · simp [hs]

theorem parseData_source_normalized (env : Env) (nowMilli : Int) (entry : RawLogEntryS)
    (opName logName ctURL : String) (d : DataS)
    (h : parseData env nowMilli entry opName logName ctURL = some d) :
    d.source.normalizedURL = normalizeCtlogURL ctURL := by
  simp only [parseData] at h
  rcases hle : entry.toLogEntryResult with _ | le
  · simp only [hle] at h
    exact Option.noConfusion h
  · simp only [hle] at h
    rcases hx : le.x509Cert with _ | c
    · simp only [hx] at h
      rcases hp : le.precert with _ | p
      · simp only [hp] at h
        exact Option.noConfusion h
      · simp only [hp] at h
        rcases hlc : leafCertFromX509cert env p.tbsCertificate with _ | lc0
        · simp only [hlc] at h
          exact Option.noConfusion h
        · simp only [hlc] at h
          rcases hch : parseCertificateChain env le with _ | chain
          · simp only [hch] at h
            exact Option.noConfusion h
          · simp only [hch, Option.some.injEq] at h
            subst h
            rfl
    · simp only [hx] at h
      rcases hlc : leafCertFromX509cert env c with _ | lc0
      · simp only [hlc] at h
        exact Option.noConfusion h
      · simp only [hlc] at h
        rcases hch : parseCertificateChain env le with _ | chain
        · simp only [hch] at h
          exact Option.noConfusion h
        · simp only [hch, Option.some.injEq] at h
          subst h
          rfl

/-- A StartIndex token that contains a space (the documented
`"<url-substring> <index>"` shape) can never satisfy
`strings.Contains(w.ctURL, element)` against a space-free URL, so the
override loop always returns the tree size. -/
theorem computeLogStart_space_token_dead (treeSize : Int) (cfg : List String) (url : String)
    (hcfg : ∀ e ∈ cfg, (' ' : Char) ∈ e.data) (hurl : (' ' : Char) ∉ url.data) :
    computeLogStart treeSize cfg url = some treeSize := by
  induction cfg with
  | nil => rfl
  | cons e t ih =>
    have hcont : goContains url e = false := by
      apply decide_eq_false
      intro hinf
      exact hurl (hinf.subset (hcfg e (by simp)))
    have step : computeLogStart treeSize (e :: t) url = computeLogStart treeSize t url := by
      simp only [computeLogStart, List.foldlM_cons, hcont, Bool.false_eq_true, if_false,
        Option.some_bind]
      rfl
    rw [step]
    exact ih (fun x hx => hcfg x (List.mem_cons_of_mem _ hx))

/-- C1: the spec claims a failed CA-Owner refresh leaves the previous
catalog in place. The code instead executes
`CAOwners, _ = DownloadAndParseCSV(...)`, discarding the error and
overwriting the process-wide map with the nil map the function returns on
failure: here a non-empty previous catalog becomes nil after a download
failure, and the overwrite with nil happens for every previous catalog. -/
theorem C1_catalog_refresh_failure_sets_nil :
    updateCAOwnersStep (some [("1a2b3c", "Example CA")]) (fun _ => [])
        CSVFetchOutcome.httpFailure = none ∧
    (∀ (prev : Option (List (String × String))) (b64 : String → List Nat),
      updateCAOwnersStep prev b64 CSVFetchOutcome.httpFailure = none) :=
  ⟨rfl, fun _ _ => rfl⟩

/-- C2: the claim says a certificate whose policy list contains
2.23.140.1.2.3 (with an Organization and no jurisdiction marker) gets
validation_type "IV". The code stringifies the policy list with `%d`,
which renders `[[2 23 140 1 2 3]]` — containing no dots — so the
dotted-decimal `strings.Contains` checks can never match: the IV cert
evaluates to "OV", and for every policy list all three distinguishing
policy branches (DV / IV / EV) are dead. -/
theorem C2_policy_oid_branches_dead :
    ((leafCertFromX509cert testEnv c2cert).map (fun lc => lc.validationType) = some "OV") ∧
    fmtOIDListPercentD c2cert.policyIdentifiers = "[[2 23 140 1 2 3]]" ∧
    (∀ oids : List (List Nat),
      goContains (fmtOIDListPercentD oids) "2.23.140.1.2.1" = false ∧
      goContains (fmtOIDListPercentD oids) "2.23.140.1.2.3" = false ∧
      goContains (fmtOIDListPercentD oids) "2.23.140.1.1" = false) := by
  refine ⟨by decide, by decide, fun oids => ⟨?_, ?_, ?_⟩⟩
  · exact policy_dotted_contains_false oids _ (by decide)
  · exact policy_dotted_contains_false oids _ (by decide)
  · exact policy_dotted_contains_false oids _ (by decide)

/-- C3: the claim says a subject DN containing a jurisdictionCountry
attribute (type OID 1.3.6.1.4.1.311.60.2.1.3) makes the aggregated JSON
contain that OID string and forces validation_type "EV". `ParseNameJSON`
keeps only attribute *values*, so for a certificate whose subject carries
exactly that attribute the aggregated JSON does not contain the OID and
the validation type stays "OV". -/
theorem C3_jurisdiction_oid_missing_from_aggregated :
    c3cert.subject.names.any
        (fun a => a.attrType = [1, 3, 6, 1, 4, 1, 311, 60, 2, 1, 3]) = true ∧
    (leafCertFromX509cert testEnv c3cert).map
        (fun lc => (lc.validationType,
          lc.subject.aggregated.map (fun a => goContains a "1.3.6.1.4.1.311.60.2.1.3"))) =
      some ("OV", some false) := by
  refine ⟨by decide, by decide⟩

/-- C4 counterexample: a CA certificate with SAN list ["example.com"] has a
non-empty all_domains but an empty all_reg_domains, refuting both the
per-entry mapping and the non-emptiness consequence of the claim. -/
theorem C4_counterexample_ca_cert :
    (leafCertFromX509cert testEnv c4cert).map (fun lc => (lc.allDomains, lc.allRegDomains)) =
      some (["example.com"], []) := by decide

/-- C4 (amended): all_reg_domains is the first-occurrence de-duplication of
the registrable-or-raw mapping over the DNS SANs only when the subject CN
is non-empty and the certificate is not a CA; otherwise it is empty. -/
theorem C4_allRegDomains_conditional :
    ∀ (env : Env) (cert : XCert) (lc : LeafCert),
      leafCertFromX509cert env cert = some lc →
      lc.allRegDomains =
        (if cert.subject.commonName ≠ "" ∧ cert.isCA = false then
          goDedupFirst (cert.dnsNames.map (regDomainOf env))
        else []) := by
  intro env cert lc h
  simp only [leafCertFromX509cert, buildSubject_cn, buildSubject_aggregated, Option.some_bind,
    Option.some.injEq] at h
  subst h
  dsimp only
  split
  · rw [domainScan_reg]
    simp
  · simp [goDedupFirst]

/-- C4 witness: the amended statement evaluated at the concrete CA
certificate. -/
theorem C4_allRegDomains_conditional_witness :
    ((leafCertFromX509cert testEnv c4cert).getD emptyLeafCert).allRegDomains =
      (if c4cert.subject.commonName ≠ "" ∧ c4cert.isCA = false then
        goDedupFirst (c4cert.dnsNames.map (regDomainOf testEnv))
      else []) :=
  C4_allRegDomains_conditional testEnv c4cert
    ((leafCertFromX509cert testEnv c4cert).getD emptyLeafCert) rfl

/-- C5 counterexample: with DNS SANs ["a.com", "a.com"], an empty CN and a
non-CA certificate, all_domains keeps the duplicate (refuting "no entry
appears twice") and the empty CN — absent from the SANs, on a non-CA cert —
is not appended (refuting the claimed if-and-only-if). -/
theorem C5_counterexample_duplicate_sans :
    (leafCertFromX509cert testEnv c5cert).map (fun lc => lc.allDomains) =
      some ["a.com", "a.com"] ∧
    ¬ (["a.com", "a.com"] : List String).Nodup ∧
    "" ∉ ["a.com", "a.com"] ∧ c5cert.isCA = false := by
  refine ⟨by decide, by decide, by decide, by decide⟩

/-- C5 (amended): all_domains is the DNS-SAN list verbatim (duplicates
preserved), with the subject CN appended at the end if and only if the CN
is non-empty, the certificate is not a CA and the CN does not already
appear among the DNS SANs. -/
theorem C5_allDomains_characterization :
    ∀ (env : Env) (cert : XCert) (lc : LeafCert),
      leafCertFromX509cert env cert = some lc →
      lc.allDomains =
        cert.dnsNames ++
          (if cert.subject.commonName ≠ "" ∧ cert.isCA = false ∧
              cert.subject.commonName ∉ cert.dnsNames
           then [cert.subject.commonName] else []) := by
  intro env cert lc h
  simp only [leafCertFromX509cert, buildSubject_cn, buildSubject_aggregated, Option.some_bind,
    Option.some.injEq] at h
  subst h
  dsimp only
  split
  · rename_i h1
    rw [domainScan_added]
    by_cases hmem : cert.subject.commonName ∈ cert.dnsNames
    · have hany : (cert.dnsNames.any fun d => d = cert.subject.commonName) = true := by
        simp only [List.any_eq_true, decide_eq_true_eq]
        exact ⟨cert.subject.commonName, hmem, rfl⟩
      simp [hany, hmem]
    · have hany : (cert.dnsNames.any fun d => d = cert.subject.commonName) = false := by
        simp only [List.any_eq_false, decide_eq_true_eq]
        intro x hx hxe
        exact hmem (hxe ▸ hx)
      simp [hany, hmem, h1.1, h1.2]
  · rename_i h1
    have hcond : ¬(cert.subject.commonName ≠ "" ∧ cert.isCA = false ∧
        cert.subject.commonName ∉ cert.dnsNames) := by
      intro hc
      exact h1 ⟨hc.1, hc.2.1⟩
    simp [hcond]

/-- C5 witness: the amended statement evaluated at the concrete
duplicate-SAN certificate. -/
theorem C5_allDomains_characterization_witness :
    ((leafCertFromX509cert testEnv c5cert).getD emptyLeafCert).allDomains =
      c5cert.dnsNames ++
        (if c5cert.subject.commonName ≠ "" ∧ c5cert.isCA = false ∧
            c5cert.subject.commonName ∉ c5cert.dnsNames
         then [c5cert.subject.commonName] else []) :=
  C5_allDomains_characterization testEnv c5cert
    ((leafCertFromX509cert testEnv c5cert).getD emptyLeafCert) rfl

/-- C6: the claim says the start index is overridden whenever a StartIndex
token's *first space-separated field* is a substring of the worker URL and
its second field is positive. The code checks the whole token
(`strings.Contains(w.ctURL, element)`), so for the token
"ct.example.com 100" and the URL "https://ct.example.com/2025" — whose
first field matches and whose index 100 is positive — no override happens
and the start index stays at the tree size 5000; a matching token without
a space would instead panic on `logStartIndex[1]`. -/
theorem C6_startIndex_override_never_fires :
    computeLogStart 5000 ["ct.example.com 100"] "https://ct.example.com/2025" = some 5000 ∧
    goContains "https://ct.example.com/2025" "ct.example.com" = true ∧
    goAtoi "100" > 0 ∧
    computeLogStart 5000 ["ct.example.com"] "https://ct.example.com/2025" = none := by
  refine ⟨by decide, by decide, by decide, by decide⟩

/-- C7: for every precertificate entry, the emitted sha1/sha256 are the
hashes of the submitted DER bytes (Precert.Submitted.Data), fingerprint
equals sha1, and whenever the submitted-DER digest differs from the
TBS-DER digest the emitted sha1 is not the TBS hash. -/
theorem C7_precert_hashes_over_submitted :
    ∀ (env : Env) (nowMilli : Int) (entry : RawLogEntryS) (opName logName ctURL : String)
      (le : LogEntryS) (p : PrecertS) (d : DataS),
      entry.toLogEntryResult = some le →
      le.x509Cert = none →
      le.precert = some p →
      parseData env nowMilli entry opName logName ctURL = some d →
      (d.leafCert.sha1 = calculateSHA1 env p.submitted ∧
       d.leafCert.sha256 = calculateSHA256 env p.submitted ∧
       d.leafCert.fingerprint = calculateSHA1 env p.submitted ∧
       (calculateSHA1 env p.submitted ≠ calculateSHA1 env p.tbsCertificate.raw →
         d.leafCert.sha1 ≠ calculateSHA1 env p.tbsCertificate.raw)) := by
  intro env nowMilli entry opName logName ctURL le p d h1 h2 h3 h4
  simp only [parseData, h1, h2, h3] at h4
  rcases hlc : leafCertFromX509cert env p.tbsCertificate with _ | lc0
  · rw [hlc] at h4
    simp at h4
  · rw [hlc] at h4
    rcases hch : parseCertificateChain env le with _ | chain
    · rw [hch] at h4
      simp at h4
    · rw [hch] at h4
      simp only [Option.some.injEq] at h4
      subst h4
      refine ⟨rfl, rfl, rfl, ?_⟩
      intro hne
      simpa using hne

/-- C7 witness: the theorem applied to a concrete precert entry whose
submitted DER is [1] and whose TBS DER is [2], under identity digest
oracles. -/
theorem C7_precert_hashes_witness :
    (((parseData c7env 0 c7rawEntry "Op" "Log" "u").getD {}).leafCert.sha1 =
        calculateSHA1 c7env c7precert.submitted ∧
     ((parseData c7env 0 c7rawEntry "Op" "Log" "u").getD {}).leafCert.sha256 =
        calculateSHA256 c7env c7precert.submitted ∧
     ((parseData c7env 0 c7rawEntry "Op" "Log" "u").getD {}).leafCert.fingerprint =
        calculateSHA1 c7env c7precert.submitted ∧
     (calculateSHA1 c7env c7precert.submitted ≠ calculateSHA1 c7env c7precert.tbsCertificate.raw →
       ((parseData c7env 0 c7rawEntry "Op" "Log" "u").getD {}).leafCert.sha1 ≠
         calculateSHA1 c7env c7precert.tbsCertificate.raw)) :=
  C7_precert_hashes_over_submitted c7env 0 c7rawEntry "Op" "Log" "u"
    { precert := some c7precert } c7precert
    ((parseData c7env 0 c7rawEntry "Op" "Log" "u").getD {}) rfl rfl rfl rfl

/-- C8 counterexample: the same raw entry parsed at wall-clock 0 ms and at
1000 ms yields different entries — the `seen` field is the invocation time,
so re-parsing is not byte-identical across invocations. -/
theorem C8_counterexample_seen_differs :
    parseCertstreamEntry testEnv 0 (some c8rawEntry) "Op" "Log" "ct.x.com" ≠
      parseCertstreamEntry testEnv 1000 (some c8rawEntry) "Op" "Log" "ct.x.com" := by
  intro h
  have h0 : (parseCertstreamEntry testEnv 0 (some c8rawEntry) "Op" "Log" "ct.x.com").map
      (fun e => e.data.seen) = some (((0 : Int) : Rat) / 1000) := rfl
  have h1 : (parseCertstreamEntry testEnv 1000 (some c8rawEntry) "Op" "Log" "ct.x.com").map
      (fun e => e.data.seen) = some (((1000 : Int) : Rat) / 1000) := rfl
  rw [h] at h0
  rw [h1] at h0
  have h2 : ((1000 : Int) : Rat) / 1000 = ((0 : Int) : Rat) / 1000 := Option.some.inj h0
  norm_num at h2

/-- C8 (amended): parsing is deterministic in everything except `seen` —
two invocations of parseCertstreamEntry on the same input at any two
wall-clock instants agree on every field once `seen` is normalised. -/
theorem C8_deterministic_modulo_seen :
    ∀ (env : Env) (t1 t2 : Int) (rawEntry : Option RawLogEntryS) (opName logName ctURL : String),
      (parseCertstreamEntry env t1 rawEntry opName logName ctURL).map clearSeen =
        (parseCertstreamEntry env t2 rawEntry opName logName ctURL).map clearSeen := by
  intro env t1 t2 rawEntry opName logName ctURL
  cases rawEntry with
  | none => rfl
  | some e =>
    simp only [parseCertstreamEntry, parseData]
    rcases hle : e.toLogEntryResult with _ | le
    · rfl
    · simp only
      rcases hx : le.x509Cert with _ | c
      · simp only [hx]
        rcases hp : le.precert with _ | p
        · simp only [hp]
        · simp only [hp]
          rcases hlc : leafCertFromX509cert env p.tbsCertificate with _ | lc0
          · simp only [hlc]
          · simp only [hlc]
            rcases hch : parseCertificateChain env le with _ | chain
            · simp only [hch]
            · simp only [hch]
              simp [clearSeen]
      · simp only [hx]
        rcases hlc : leafCertFromX509cert env c with _ | lc0
        · simp only [hlc]
        · simp only [hlc]
          rcases hch : parseCertificateChain env le with _ | chain
          · simp only [hch]
          · simp only [hch]
            simp [clearSeen]

/-- C9 counterexample: normalizeCtlogURL strips only one scheme prefix, so
the input "https://https://a.com/" yields "https://a.com", which still
starts with "https://" — refuting the claim for every input string. -/
theorem C9_counterexample_double_scheme :
    normalizeCtlogURL "https://https://a.com/" = "https://a.com" ∧
    goHasPre (normalizeCtlogURL "https://https://a.com/") "https://" = true := by
  refine ⟨by decide, by decide⟩

/-- C9 (amended): for every input in which, after stripping one
"https://" and then one "http://" prefix, the remainder neither begins
with another scheme prefix nor ends with "//", the output of
normalizeCtlogURL has no scheme prefix and no trailing slash; and the
normalized_url field of every successfully parsed event equals
normalizeCtlogURL of the worker URL. -/
theorem C9_normalized_url_invariant :
    ∀ (s : String) (env : Env) (nowMilli : Int) (entry : RawLogEntryS)
      (opName logName : String) (d : DataS),
      goHasPre (goTrimPre (goTrimPre s "https://") "http://") "https://" = false →
      goHasPre (goTrimPre (goTrimPre s "https://") "http://") "http://" = false →
      goHasSuf (goTrimPre (goTrimPre s "https://") "http://") "//" = false →
      parseData env nowMilli entry opName logName s = some d →
      (goHasPre (normalizeCtlogURL s) "https://" = false ∧
       goHasPre (normalizeCtlogURL s) "http://" = false ∧
       goHasSuf (normalizeCtlogURL s) "/" = false ∧
       d.source.normalizedURL = normalizeCtlogURL s) := by
  intro s env nowMilli entry opName logName d h1 h2 h3 h4
  exact ⟨trimSuf_keeps_no_pre _ _ _ h1, trimSuf_keeps_no_pre _ _ _ h2,
    trimSuf_slash_no_suf _ h3, parseData_source_normalized env nowMilli entry opName logName s d h4⟩

/-- C9 witness: the amended statement at the single-scheme URL
"https://ct.example.com/logs/2025/" and a concrete successfully parsed
entry. -/
theorem C9_normalized_url_invariant_witness :
    (goHasPre (normalizeCtlogURL "https://ct.example.com/logs/2025/") "https://" = false ∧
     goHasPre (normalizeCtlogURL "https://ct.example.com/logs/2025/") "http://" = false ∧
     goHasSuf (normalizeCtlogURL "https://ct.example.com/logs/2025/") "/" = false ∧
     ((parseData testEnv 0 c8rawEntry "Op" "Log" "https://ct.example.com/logs/2025/").getD
           {}).source.normalizedURL =
       normalizeCtlogURL "https://ct.example.com/logs/2025/") :=
  C9_normalized_url_invariant "https://ct.example.com/logs/2025/" testEnv 0 c8rawEntry "Op" "Log"
    ((parseData testEnv 0 c8rawEntry "Op" "Log" "https://ct.example.com/logs/2025/").getD {})
    (by decide) (by decide) (by decide) rfl

/-- C10: buildSubject always returns non-nil CN and Aggregated pointers
(the addresses of the CommonName copy and of the marshalled JSON), so the
unconditional dereferences inside leafCertFromX509cert never fault and the
conversion succeeds on every certificate. -/
theorem C10_subject_pointers_total :
    ∀ (name : PkixName) (env : Env) (cert : XCert),
      (buildSubject name).cn.isSome = true ∧
      (buildSubject name).aggregated.isSome = true ∧
      (leafCertFromX509cert env cert).isSome = true :=
  fun _ _ _ => ⟨rfl, rfl, rfl⟩
